import Mathlib

/-!
Verification development for the crosses-utils rules engine.

The development shallowly embeds the two authoritative modules of the
repository, src/board_manager.rs and src/player_manager.rs, as executable
Lean definitions and proves or refutes the specification claims about them.

Machine integers (usize) are modelled as Nat; Rust panics (explicit
panic, unreachable, debug-mode integer underflow and Option::unwrap) are
modelled by returning none from an Option-valued function, so that a
function returns some result exactly when the Rust function returns
normally.
-/

namespace CrossesUtils

/-! ## Turn manager (src/player_manager.rs) -/

/-- LoseData from player_manager.rs: recorded when a player loses. -/
structure LoseData where
  move_index : Nat
  remaining_moves : Nat
deriving DecidableEq

/-- GameOver from player_manager.rs. -/
inductive GameOver where
  | Win : Nat → GameOver
  | Draw : GameOver
deriving DecidableEq

/-- GameState from player_manager.rs. -/
inductive GameState where
  | Ongoing : GameState
  | Ended : GameOver → GameState
deriving DecidableEq

/-- PlayerManager from player_manager.rs.  The storage type S is fixed to
a list of optional LoseData, indexed by player, read through getD. -/
structure PlayerManager where
  remaining_moves : Nat
  max_moves : Nat
  current_player : Nat
  max_players : Nat
  current_move : Nat
  game_state : GameState
  losers : List (Option LoseData)
deriving DecidableEq

/-- PlayerManager::new. -/
def PlayerManager.new (max_moves max_players : Nat) (losers : List (Option LoseData)) :
    PlayerManager :=
  { remaining_moves := max_moves
    max_moves := max_moves
    current_player := 0
    max_players := max_players
    losers := losers
    current_move := 0
    game_state := GameState.Ongoing }

/-- PlayerManager::count_not_losers. -/
def count_not_losers (pm : PlayerManager) : Nat :=
  ((List.range pm.max_players).filter (fun i => (pm.losers.getD i none).isNone)).length

/-- The list of deltas 1, 2, ..., max_players - 1 scanned by
check_if_other_players_have_lost and next_player_idx
(Rust: for delta in 1..self.max_players). -/
def deltas (maxP : Nat) : List Nat :=
  (List.range (maxP - 1)).map (fun d => d + 1)

/-- The loop body of PlayerManager::check_if_other_players_have_lost,
recursing over the remaining deltas.  m is the running
maybe_not_losers counter of the source; note that the source decrements
it when a player is eliminated for being out of crosses but not when a
player is eliminated for being out of moves. -/
def check_go (oom ooc : Nat → Bool) (check_all : Bool) (maxP curP curMove : Nat) :
    List Nat → Nat → List (Option LoseData) → List (Option LoseData)
  | [], _, losers => losers
  | d :: rest, m, losers =>
    let idx := (curP + d) % maxP
    if (losers.getD idx none).isNone then
      if ooc idx then
        check_go oom ooc check_all maxP curP curMove rest (m - 1)
          (losers.set idx (some ⟨curMove, 0⟩))
      else if oom idx then
        if 1 < m then
          check_go oom ooc check_all maxP curP curMove rest m
            (losers.set idx (some ⟨curMove, 0⟩))
        else losers
      else if check_all then
        check_go oom ooc check_all maxP curP curMove rest m losers
      else losers
    else check_go oom ooc check_all maxP curP curMove rest m losers

/-- PlayerManager::check_if_other_players_have_lost. -/
def check_if_other_players_have_lost (pm : PlayerManager) (check_all : Bool)
    (oom ooc : Nat → Bool) : PlayerManager :=
  { pm with
    losers := check_go oom ooc check_all pm.max_players pm.current_player pm.current_move
      (deltas pm.max_players) (count_not_losers pm) pm.losers }

/-- PlayerManager::next_player_idx.  The unreachable panic at the end of
the source loop is modelled by returning none. -/
def next_player_idx (pm : PlayerManager) : Option Nat :=
  ((deltas pm.max_players).find? (fun d =>
      (pm.losers.getD ((pm.current_player + d) % pm.max_players) none).isNone)).map
    (fun d => (pm.current_player + d) % pm.max_players)

/-- The winner lookup of PlayerManager::advance in the one-non-loser case
(Rust: (0..max_players).find(|idx| losers[idx].is_none()); the
subsequent unwrap is modelled by the Option). -/
def find_winner (pm : PlayerManager) : Option Nat :=
  (List.range pm.max_players).find? (fun i => (pm.losers.getD i none).isNone)

/-- The tail of PlayerManager::advance after the elimination re-check:
the match on count_not_losers. -/
def advance_finish (pmc : PlayerManager) : Option PlayerManager :=
  match count_not_losers pmc with
  | 0 => some { pmc with game_state := GameState.Ended GameOver.Draw }
  | 1 => (find_winner pmc).map
      (fun w => { pmc with game_state := GameState.Ended (GameOver.Win w) })
  | _ + 2 => (next_player_idx pmc).map
      (fun np => { pmc with current_player := np, remaining_moves := pmc.max_moves })

/-- The final current_move increment of PlayerManager::advance. -/
def bump_move (pm : PlayerManager) : PlayerManager :=
  { pm with current_move := pm.current_move + 1 }

/-- PlayerManager::advance.  Returns none where the source panics: on an
already ended game (explicit panic), on usize underflow of
remaining_moves, and on the unreachable/unwrap panics inside the
turn-passing branch. -/
def advance (pm : PlayerManager) (oom ooc : Nat → Bool) : Option PlayerManager :=
  if pm.game_state ≠ GameState.Ongoing then none
  else if pm.remaining_moves = 0 then none
  else
    let pmd := { pm with remaining_moves := pm.remaining_moves - 1 }
    if pmd.remaining_moves = 0 then
      (advance_finish (check_if_other_players_have_lost pmd false oom ooc)).map bump_move
    else if oom pmd.current_player then
      let pmm := { pmd with
        losers := pmd.losers.set pmd.current_player
          (some ⟨pmd.current_move, pmd.remaining_moves⟩) }
      (advance_finish (check_if_other_players_have_lost pmm true oom ooc)).map bump_move
    else some (bump_move pmd)

/-- The un-marking loop of PlayerManager::reverse, walking from the
undone player cyclically up to the current player and clearing every
LoseData recorded at the (already decremented) current move index.
Fuel bounds the loop; max_players + 1 steps suffice whenever the
current player is reachable from the start index modulo max_players. -/
def unmark_go (curMove curP maxP : Nat) :
    Nat → Nat → List (Option LoseData) → List (Option LoseData)
  | 0, _, losers => losers
  | fuel + 1, idx, losers =>
    let losers :=
      match losers.getD idx none with
      | some ld => if ld.move_index = curMove then losers.set idx none else losers
      | none => losers
    if idx = curP then losers
    else unmark_go curMove curP maxP fuel ((idx + 1) % maxP) losers

/-- PlayerManager::reverse.  Returns none where the source panics
(usize underflow of current_move when no move has been made). -/
def reverse (pm : PlayerManager) (player : Nat) : Option PlayerManager :=
  if pm.current_move = 0 then none
  else
    let pmd := { pm with current_move := pm.current_move - 1 }
    match pmd.losers.getD player none with
    | some ld =>
      some { pmd with
        remaining_moves := ld.remaining_moves
        losers := unmark_go pmd.current_move pmd.current_player pmd.max_players
          (pmd.max_players + 1) player pmd.losers
        current_player := player }
    | none =>
      some { pmd with
        remaining_moves :=
          if pmd.remaining_moves = 0 then pmd.max_moves else pmd.remaining_moves - 1
        current_player := player }

/-- Concrete three player manager with player 0 already a loser, used as a
witness input for the turn-passing outcome theorem. -/
def c6_mid : PlayerManager :=
  { PlayerManager.new 2 3 [none, none, none] with losers := [some ⟨0, 1⟩, none, none] }

/-! ## Board engine (src/board_manager.rs)

The BoardManager and Cell traits of the source are generic; the claims
quantify over boards, so the embedding instantiates them with the natural
concrete model: players are naturals, a cell stores its kind, owner, a
per-player activation count list, and the important, alive and overheat
flags, and a board stores a cell list (out-of-range reads yield the
immutable Border sentinel) together with the two per-player counters.
Adjacency is an explicit function parameter, mirroring the associated
adjacent function of the trait. -/

/-- CellKind from board_manager.rs. -/
inductive CellKind where
  | Empty : CellKind
  | Cross : CellKind
  | Filled : CellKind
  | Border : CellKind
deriving DecidableEq

/-- ActivationStatus from board_manager.rs. -/
inductive ActivationStatus where
  | Regular : ActivationStatus
  | Overheat : ActivationStatus
  | Zero : ActivationStatus
deriving DecidableEq

/-- BoardError from board_manager.rs. -/
inductive BoardError where
  | SelfFill : BoardError
  | DoubleFill : BoardError
  | BorderHit : BoardError
  | OutOfReach : BoardError
  | EmptyCancel : BoardError
deriving DecidableEq

/-- Modelled from the spec: the repository declares the Cell trait but
ships no concrete cell type, so the cell state is assembled from the
trait documentation and section 4.1 of the spec: a kind, the owning
player, a non-negative activation count per player, and the important,
alive and overheat flags.  Activation counts are unbounded naturals, so
the saturating-counter overheat refinement never fires; the overheat
handling code is still translated faithfully below. -/
structure GameCell where
  kind : CellKind
  player : Nat
  activity : List Nat
  important : Bool
  alive : Bool
  overheat : Bool
deriving DecidableEq

/-- Cell::is_active. -/
def GameCell.is_active (c : GameCell) (p : Nat) : Bool :=
  decide (0 < c.activity.getD p 0)

/-- Modelled from the spec: Cell::activate increments the activation
count of the given player; with unbounded counters the status is always
Regular. -/
def GameCell.activate (c : GameCell) (p : Nat) : GameCell × ActivationStatus :=
  ({ c with activity := c.activity.set p (c.activity.getD p 0 + 1) },
    ActivationStatus.Regular)

/-- Modelled from the spec: Cell::deactivate decrements the activation
count of the given player and reports Zero when the count reaches zero. -/
def GameCell.deactivate (c : GameCell) (p : Nat) : GameCell × ActivationStatus :=
  ({ c with activity := c.activity.set p (c.activity.getD p 0 - 1) },
    if c.activity.getD p 0 - 1 = 0 then ActivationStatus.Zero else ActivationStatus.Regular)

/-- Cell::reset_activity. -/
def GameCell.reset_activity (c : GameCell) : GameCell :=
  { c with activity := List.replicate c.activity.length 0 }

/-- Modelled from the spec: Cell::cross_out makes the cell a Cross of the
given player, not important; per the trait documentation only the given
player's activity may change, and per the own-owner discipline enforced
by the debug assertion in try_deactivate (a Cross is never active for its
own player) that activity is cleared. -/
def GameCell.cross_out (c : GameCell) (p : Nat) : GameCell :=
  { c with
    kind := CellKind.Cross
    player := p
    activity := c.activity.set p 0
    important := false }

/-- Modelled from the spec: Cell::fill makes the cell a Filled cell of
the given player, alive and not important; activity is untouched. -/
def GameCell.fill (c : GameCell) (p : Nat) : GameCell :=
  { c with kind := CellKind.Filled, player := p, alive := true, important := false }

/-- Modelled from the spec: Cell::remove_fill makes the cell a Cross of
the given player and, per the trait documentation (the cell should be
deactivated for all players), clears every activation count; the alive
and overheat flags are reset with it. -/
def GameCell.remove_fill (c : GameCell) (p : Nat) : GameCell :=
  { c with
    kind := CellKind.Cross
    player := p
    activity := List.replicate c.activity.length 0
    alive := false
    overheat := false }

/-- Modelled from the spec: Cell::remove_cross makes the cell Empty and
activates the player that owned the cross on it (trait documentation:
activity is unchanged except that of the owning player, which should be
activated). -/
def GameCell.remove_cross (c : GameCell) : GameCell :=
  { c with
    kind := CellKind.Empty
    activity := c.activity.set c.player (c.activity.getD c.player 0 + 1) }

/-- The immutable Border sentinel returned for out-of-range reads. -/
def borderCell : GameCell :=
  { kind := CellKind.Border, player := 0, activity := [], important := false,
    alive := false, overheat := false }

/-- The concrete board: cells plus the per-player movable-cell and
crosses counters mutated through add_to_moves_counter and
add_to_crosses_counter. -/
structure Board where
  cells : List GameCell
  moves : List Int
  crosses : List Int
deriving DecidableEq

/-- BoardManager::get. -/
def get (b : Board) (i : Nat) : GameCell :=
  b.cells.getD i borderCell

/-- BoardManager::set. -/
def set (b : Board) (i : Nat) (c : GameCell) : Board :=
  { b with cells := b.cells.set i c }

/-- BoardManager::add_to_moves_counter. -/
def add_to_moves_counter (b : Board) (p : Nat) (amount : Int) : Board :=
  { b with moves := b.moves.set p (b.moves.getD p 0 + amount) }

/-- BoardManager::add_to_crosses_counter. -/
def add_to_crosses_counter (b : Board) (p : Nat) (amount : Int) : Board :=
  { b with crosses := b.crosses.set p (b.crosses.getD p 0 + amount) }

/-- Fuel bound for the chain traversal: one dequeue per initial element
plus at most one enqueue per adjacency edge of the board. -/
def chain_fuel (adj : Nat → List Nat) (b : Board) : Nat :=
  b.cells.length + (List.range b.cells.length).foldl (fun s i => s + (adj i).length) 0 + 2

/-- Modelled from the spec: the BoardManager::traverse primitive is left
to the board implementation; per its documentation it applies the action
to every filled cell of the chain starting at the given index and to
every cell adjacent to the chain, with ControlFlow-style early exit.
This implementation is a fueled breadth-first walk with a visited list:
the action runs once per reached cell, and a reached cell is expanded
when it is a Filled cell of the chain owner. -/
def traverse_go (adj : Nat → List Nat) (action : Board → Nat → Board × Option Nat)
    (owner : Nat) : Nat → Board → List Nat → List Nat → Board × Option Nat
  | 0, b, _, _ => (b, none)
  | _ + 1, b, _, [] => (b, none)
  | fuel + 1, b, visited, i :: rest =>
    if i ∈ visited then traverse_go adj action owner fuel b visited rest
    else
      let r := action b i
      match r.2 with
      | some x => (r.1, some x)
      | none =>
        let c := get r.1 i
        let next := if c.kind = CellKind.Filled ∧ c.player = owner then adj i else []
        traverse_go adj action owner fuel r.1 (i :: visited) (rest ++ next)

/-- BoardManager::traverse, started on a filled cell whose owner defines
the chain. -/
def traverse (adj : Nat → List Nat) (b : Board) (index : Nat)
    (action : Board → Nat → Board × Option Nat) : Board × Option Nat :=
  traverse_go adj action (get b index).player (chain_fuel adj b) b [] [index]

/-- try_activate from board_manager.rs. -/
def try_activate (b : Board) (c : GameCell) (p : Nat) : Board × GameCell :=
  let b := if ¬ c.is_active p then add_to_moves_counter b p 1 else b
  if ¬ (c.kind = CellKind.Cross ∧ p = c.player) then
    let r := c.activate p
    (b, if r.2 = ActivationStatus.Overheat then { r.1 with overheat := true } else r.1)
  else (b, c)

/-- rebuild_activity from board_manager.rs. -/
def rebuild_activity (adj : Nat → List Nat) (b : Board) (index : Nat)
    (c : GameCell) : GameCell :=
  let c := { c.reset_activity with overheat := false }
  (adj index).foldl
    (fun c j =>
      let a := get b j
      if a.kind = CellKind.Cross ∨ (a.kind = CellKind.Filled ∧ a.alive) then
        if ¬ (c.kind = CellKind.Cross ∧ a.player = c.player) then
          let r := c.activate a.player
          if r.2 = ActivationStatus.Overheat then { r.1 with overheat := true } else r.1
        else c
      else c)
    c

/-- try_deactivate from board_manager.rs (the debug assertion of the
source is a no-op here). -/
def try_deactivate (adj : Nat → List Nat) (b : Board) (c : GameCell) (index p : Nat) :
    Board × GameCell :=
  if c.is_active p then
    let r := c.deactivate p
    if r.2 = ActivationStatus.Zero then
      if r.1.overheat then
        let c2 := rebuild_activity adj b index r.1
        if c2.is_active p then (add_to_moves_counter b p (-1), c2) else (b, c2)
      else (add_to_moves_counter b p (-1), r.1)
    else (b, r.1)
  else (b, c)

/-- revive_strategy from board_manager.rs. -/
def revive_strategy (adj : Nat → List Nat) (b : Board) (index p : Nat) : Board :=
  let c := get b index
  if c.kind = CellKind.Filled ∧ c.player = p then
    let b := set b index { c with alive := true }
    (adj index).foldl
      (fun b j =>
        let cj := get b j
        if cj.kind = CellKind.Cross ∨ cj.kind = CellKind.Empty then
          let r := try_activate b cj p
          set r.1 j r.2
        else b)
      b
  else b

/-- kill_strategy from board_manager.rs. -/
def kill_strategy (adj : Nat → List Nat) (b : Board) (index p : Nat) : Board :=
  let c := get b index
  if c.kind = CellKind.Filled ∧ c.player = p then
    let b := set b index { c with alive := false }
    (adj index).foldl
      (fun b j =>
        let cj := get b j
        if cj.kind = CellKind.Cross ∨ cj.kind = CellKind.Empty then
          let r := try_deactivate adj b cj j p
          set r.1 j r.2
        else b)
      b
  else b

/-- search_strategy from board_manager.rs. -/
def search_strategy (b : Board) (index p : Nat) : Option Nat :=
  if (get b index).kind = CellKind.Cross ∧ (get b index).player = p then some index
  else none

/-- BoardManager::revive with revive_strategy, as invoked by
activate_around. -/
def revive_chain (adj : Nat → List Nat) (b : Board) (index p : Nat) : Board :=
  (traverse adj b index (fun b i => (revive_strategy adj b i p, none))).1

/-- BoardManager::kill with kill_strategy, as invoked by
deactivate_filled_around. -/
def kill_chain (adj : Nat → List Nat) (b : Board) (index p : Nat) : Board :=
  (traverse adj b index (fun b i => (kill_strategy adj b i p, none))).1

/-- BoardManager::search with search_strategy, as invoked by
deactivate_filled_around. -/
def search_chain (adj : Nat → List Nat) (b : Board) (index p : Nat) :
    Board × Option Nat :=
  traverse adj b index (fun b i => (b, search_strategy b i p))

/-- activate_around from board_manager.rs: activates the neighbors of
index for the player and revives adjacent dead chains of that player,
reporting whether a revival happened (the important flag for the moved-to
cell).  As in the source, the stale local copy of the adjacent cell is
written back after a revival, and each neighbor is written back
unconditionally. -/
def activate_around (adj : Nat → List Nat) (b : Board) (index p : Nat) :
    Board × Bool :=
  (adj index).foldl
    (fun acc j =>
      let b := acc.1
      let c := get b j
      match c.kind with
      | CellKind.Empty =>
        let r := try_activate b c p
        (set r.1 j r.2, acc.2)
      | CellKind.Cross =>
        if c.player ≠ p then
          let r := try_activate b c p
          (set r.1 j r.2, acc.2)
        else (set b j c, acc.2)
      | CellKind.Filled =>
        if c.player = p ∧ ¬ c.alive then
          let b := revive_chain adj b j p
          (set b j { c with important := true }, true)
        else (set b j c, acc.2)
      | CellKind.Border => (set b j c, acc.2))
    (b, false)

/-- is_alive_filled_around from board_manager.rs. -/
def is_alive_filled_around (adj : Nat → List Nat) (b : Board) (index p : Nat) : Bool :=
  (adj index).any (fun i =>
    let d := get b i
    match d.kind with
    | CellKind.Filled => decide (d.player = p) && d.alive
    | _ => false)

/-- mark_adjacent_as_important from board_manager.rs. -/
def mark_adjacent_as_important (adj : Nat → List Nat) (b : Board) (index p : Nat)
    (target : CellKind) : Board :=
  match (adj index).find? (fun i =>
      decide ((get b i).kind = target) && decide ((get b i).player = p)) with
  | some j => set b j { get b j with important := true }
  | none => b

/-- is_paired from board_manager.rs. -/
def is_paired (adj : Nat → List Nat) (b : Board) (index p : Nat) : Bool :=
  (adj index).any (fun i =>
    let d := get b i
    match d.kind with
    | CellKind.Cross => decide (d.player = p) && d.important
    | CellKind.Filled => decide (d.player = p) && d.important
    | _ => false)

/-- deactivate_filled_around from board_manager.rs: for each adjacent
important Filled cell of the player, either re-anchor its chain on a
cross found by search (marking the found cross important and one of its
adjacent filled cells important) or kill the chain and clear the anchor
flag when no paired anchor remains; the stale local copy write-back of
the source is reproduced. -/
def deactivate_filled_around (adj : Nat → List Nat) (b : Board) (index p : Nat) :
    Board :=
  (adj index).foldl
    (fun b j =>
      let c := get b j
      if c.kind = CellKind.Filled ∧ c.player = p ∧ c.important then
        let s := search_chain adj b j p
        match s.2 with
        | some k =>
          let b := set s.1 k { get s.1 k with important := true }
          mark_adjacent_as_important adj b k p CellKind.Filled
        | none =>
          let b := kill_chain adj s.1 j p
          if ¬ is_paired adj b j p then set b j { c with important := false }
          else b
      else b)
    b

/-- deactivate_remaining_around from board_manager.rs. -/
def deactivate_remaining_around (adj : Nat → List Nat) (b : Board) (index p : Nat) :
    Board :=
  (adj index).foldl
    (fun b j =>
      let c := get b j
      match c.kind with
      | CellKind.Empty =>
        let r := try_deactivate adj b c j p
        set r.1 j r.2
      | CellKind.Cross =>
        let r := try_deactivate adj b c j p
        set r.1 j r.2
      | _ => set b j c)
    b

/-- deactivate_around from board_manager.rs. -/
def deactivate_around (adj : Nat → List Nat) (b : Board) (index p : Nat)
    (was_important : Bool) : Board :=
  let b := if was_important then deactivate_filled_around adj b index p else b
  deactivate_remaining_around adj b index p

/-- BoardManager::make_move.  The result pairs the returned value (none
for Ok, some error for Err) with the board as left by the call; every
early return carries the board unchanged up to that point, exactly as the
in-place mutation of the source does. -/
def make_move (adj : Nat → List Nat) (b : Board) (index p : Nat) :
    Option BoardError × Board :=
  let cell := get b index
  match cell.kind with
  | CellKind.Empty =>
    if ¬ cell.is_active p then (some BoardError.OutOfReach, b)
    else
      let cell := cell.cross_out p
      let b := add_to_crosses_counter b p 1
      let b := add_to_moves_counter b p (-1)
      let r := activate_around adj b index p
      let cell := { cell with important := r.2 }
      (none, set r.1 index cell)
  | CellKind.Cross =>
    if cell.player = p then (some BoardError.SelfFill, b)
    else if ¬ cell.is_active p then (some BoardError.OutOfReach, b)
    else
      let was_important := cell.important
      let previous_player := cell.player
      let cell := cell.fill p
      let b := add_to_moves_counter b p (-1)
      let b := add_to_crosses_counter b previous_player (-1)
      let b := set b index cell
      let b := deactivate_around adj b index previous_player was_important
      let important := ! is_alive_filled_around adj b index p
      let b := if important then mark_adjacent_as_important adj b index p CellKind.Cross
        else b
      let r := activate_around adj b index p
      let cell := { cell with important := r.2 || important }
      (none, set r.1 index cell)
  | CellKind.Filled => (some BoardError.DoubleFill, b)
  | CellKind.Border => (some BoardError.BorderHit, b)

/-- BoardManager::cancel_move.  The player supplier closure is passed as
the value it returns (it is consulted only on Filled cells). -/
def cancel_move (adj : Nat → List Nat) (b : Board) (index get_player : Nat) :
    Option BoardError × Board :=
  let cell := get b index
  match cell.kind with
  | CellKind.Empty => (some BoardError.EmptyCancel, b)
  | CellKind.Cross =>
    let was_important := cell.important
    let previous_player := cell.player
    let cell := cell.remove_cross
    let b := add_to_crosses_counter b previous_player (-1)
    let b := add_to_moves_counter b previous_player 1
    let b := set b index cell
    let b := deactivate_around adj b index previous_player was_important
    (none, set b index cell)
  | CellKind.Filled =>
    let player := get_player
    let was_important := cell.important
    let previous_player := cell.player
    let cell := cell.remove_fill player
    let b := add_to_moves_counter b previous_player 1
    let b := add_to_crosses_counter b player 1
    let b := set b index cell
    let b := deactivate_around adj b index previous_player was_important
    let r := activate_around adj b index player
    let cell := { cell with important := r.2 }
    (none, set r.1 index cell)
  | CellKind.Border => (some BoardError.BorderHit, b)

/-- init from board_manager.rs. -/
def init (adj : Nat → List Nat) (b : Board) (index p : Nat) : Board :=
  if (get b index).kind = CellKind.Cross then (activate_around adj b index p).1
  else b

/-! ### Concrete boards used by the board-engine claims -/

/-- Adjacency of a two cell board where cells 0 and 1 are mutual
neighbors. -/
def adj_pair (i : Nat) : List Nat :=
  if i = 0 then [1] else if i = 1 then [0] else []

/-- Two adjacent crosses of different owners, each active exactly for the
other player, the counters matching: the source activation-symmetry state
from which player 1 fills cell 0. -/
def board_pair : Board :=
  { cells :=
      [{ kind := CellKind.Cross, player := 0, activity := [0, 1], important := false,
          alive := false, overheat := false },
        { kind := CellKind.Cross, player := 1, activity := [1, 0], important := false,
          alive := false, overheat := false }],
    moves := [1, 1], crosses := [1, 1] }

/-- Adjacency of a four cell line 0 - 1 - 2 - 3. -/
def adj_line (i : Nat) : List Nat :=
  if i = 0 then [1] else if i = 1 then [0, 2] else if i = 2 then [1, 3]
  else if i = 3 then [2] else []

/-- A board whose chain of player 0 filled cells (1 and 2) has its anchor
at cell 1 and an adjacent player 0 cross at cell 2's side: used to
exercise the re-anchoring branch of deactivate_filled_around.  Cell 3 is
the replacement cross. -/
def board_reanchor : Board :=
  { cells :=
      [{ kind := CellKind.Empty, player := 0, activity := [1, 0], important := false,
          alive := false, overheat := false },
        { kind := CellKind.Filled, player := 0, activity := [0, 0], important := true,
          alive := true, overheat := false },
        { kind := CellKind.Filled, player := 0, activity := [0, 0], important := false,
          alive := true, overheat := false },
        { kind := CellKind.Cross, player := 0, activity := [0, 0], important := false,
          alive := false, overheat := false }],
    moves := [2, 0], crosses := [1, 0] }

/-- A board like board_reanchor but whose chain has no adjacent cross of
its owner, so search fails and the chain is killed: cell 3 is empty and
active for player 0 through the alive chain. -/
def board_kill : Board :=
  { cells :=
      [{ kind := CellKind.Empty, player := 0, activity := [1, 0], important := false,
          alive := false, overheat := false },
        { kind := CellKind.Filled, player := 0, activity := [0, 0], important := true,
          alive := true, overheat := false },
        { kind := CellKind.Filled, player := 0, activity := [0, 0], important := false,
          alive := true, overheat := false },
        { kind := CellKind.Empty, player := 0, activity := [1, 0], important := false,
          alive := false, overheat := false }],
    moves := [2, 0], crosses := [0, 0] }

/-- The activation-symmetry invariant stated by the spec, restricted as
the code disciplines it: an Empty or Cross cell has a positive activation
count for player p exactly when it is adjacent to a Cross owned by p or
an alive Filled cell owned by p, except that a Cross is never active for
its own player. -/
def activation_symmetry (adj : Nat → List Nat) (b : Board) (players : Nat) : Bool :=
  (List.range b.cells.length).all (fun i =>
    (List.range players).all (fun p =>
      let c := get b i
      let claim := (adj i).any (fun j =>
        let d := get b j
        (decide (d.kind = CellKind.Cross) && decide (d.player = p)) ||
          (decide (d.kind = CellKind.Filled) && decide (d.player = p) && d.alive))
      match c.kind with
      | CellKind.Empty => c.is_active p == claim
      | CellKind.Cross =>
        if c.player = p then true else c.is_active p == claim
      | _ => true))

/-! ### Helper lemmas for the turn manager -/

lemma getD_set_ne {α : Type} (l : List α) (i j : Nat) (v d : α) (h : i ≠ j) :
    (l.set i v).getD j d = l.getD j d := by
  rw [List.getD_eq_getElem?_getD, List.getD_eq_getElem?_getD, List.getElem?_set_ne h]

lemma check_go_mark (oom ooc : Nat → Bool) (ca : Bool) (maxP curP curMove : Nat)
    (ds : List Nat) :
    ∀ (m : Nat) (losers : List (Option LoseData)) (p : Nat),
      losers.getD p none = none →
      (check_go oom ooc ca maxP curP curMove ds m losers).getD p none ≠ none →
      ooc p = true ∨ (oom p = true ∧ 2 ≤ m) := by
  induction ds with
  | nil =>
    intro m losers p h0 h1
    rw [check_go] at h1
    exact absurd h0 h1
  | cons d rest ih =>
    intro m losers p h0 h1
    rw [check_go] at h1
    by_cases hskip : (losers.getD ((curP + d) % maxP) none).isNone
    · rw [if_pos hskip] at h1
      by_cases hooc : ooc ((curP + d) % maxP)
      · rw [if_pos hooc] at h1
        by_cases hpi : (curP + d) % maxP = p
        · exact Or.inl (hpi ▸ hooc)
        · rcases ih (m - 1) _ p (by rw [getD_set_ne _ _ _ _ _ hpi]; exact h0) h1 with
            h | ⟨ha, hb⟩
          · exact Or.inl h
          · exact Or.inr ⟨ha, by omega⟩
      · rw [if_neg hooc] at h1
        by_cases hoom : oom ((curP + d) % maxP)
        · rw [if_pos hoom] at h1
          by_cases hm : 1 < m
          · rw [if_pos hm] at h1
            by_cases hpi : (curP + d) % maxP = p
            · exact Or.inr ⟨hpi ▸ hoom, by omega⟩
            · exact ih m _ p (by rw [getD_set_ne _ _ _ _ _ hpi]; exact h0) h1
          · rw [if_neg hm] at h1
            exact absurd h0 h1
        · rw [if_neg hoom] at h1
          by_cases hca : ca = true
          · rw [if_pos hca] at h1
            exact ih m losers p h0 h1
          · rw [if_neg hca] at h1
            exact absurd h0 h1
    · rw [if_neg hskip] at h1
      exact ih m losers p h0 h1

lemma two_mem_of_nodup_length {α : Type} {l : List α} (h2 : 2 ≤ l.length)
    (hnd : l.Nodup) : ∃ a ∈ l, ∃ b ∈ l, a ≠ b := by
  match l, h2 with
  | a :: b :: t, _ =>
    refine ⟨a, by simp, b, by simp, fun hab => ?_⟩
    rw [List.nodup_cons] at hnd
    exact hnd.1 (by simp [hab])

lemma length_ge_two_of_two_mem {α : Type} {l : List α} {a b : α}
    (ha : a ∈ l) (hb : b ∈ l) (hne : a ≠ b) : 2 ≤ l.length := by
  match l with
  | [] => simp at ha
  | [x] =>
    simp at ha hb
    exact absurd (ha.trans hb.symm) hne
  | _ :: _ :: _ => simp only [List.length_cons]; omega

lemma exists_not_loser_of_count (pm : PlayerManager) (h : 1 ≤ count_not_losers pm) :
    ∃ i, i < pm.max_players ∧ (pm.losers.getD i none).isNone = true := by
  have hlen : 0 < ((List.range pm.max_players).filter
      (fun i => (pm.losers.getD i none).isNone)).length := by
    rw [count_not_losers] at h
    omega
  obtain ⟨i, hi⟩ := List.exists_mem_of_length_pos hlen
  rw [List.mem_filter, List.mem_range] at hi
  exact ⟨i, hi.1, hi.2⟩

lemma find_winner_isSome (pm : PlayerManager) (h : 1 ≤ count_not_losers pm) :
    (find_winner pm).isSome := by
  obtain ⟨i, hi, hnone⟩ := exists_not_loser_of_count pm h
  rw [find_winner, List.find?_isSome]
  exact ⟨i, List.mem_range.mpr hi, hnone⟩

lemma next_player_idx_isSome (pm : PlayerManager) (h : 2 ≤ count_not_losers pm) :
    (next_player_idx pm).isSome := by
  have hnd : ((List.range pm.max_players).filter
      (fun i => (pm.losers.getD i none).isNone)).Nodup :=
    (List.nodup_range _).filter _
  rw [count_not_losers] at h
  obtain ⟨a, ha, b, hb, hab⟩ := two_mem_of_nodup_length h hnd
  rw [List.mem_filter, List.mem_range] at ha hb
  have hmp : 0 < pm.max_players := lt_of_le_of_lt (Nat.zero_le a) ha.1
  have hc : pm.current_player % pm.max_players < pm.max_players := Nat.mod_lt _ hmp
  obtain ⟨t, htlt, htnl, htne⟩ :
      ∃ t, t < pm.max_players ∧ (pm.losers.getD t none).isNone = true ∧
        t ≠ pm.current_player % pm.max_players := by
    by_cases hac : a = pm.current_player % pm.max_players
    · exact ⟨b, hb.1, hb.2, fun hbc => hab (hac.trans hbc.symm)⟩
    · exact ⟨a, ha.1, ha.2, hac⟩
  have key : ∀ delta, (pm.current_player + delta) % pm.max_players
      = (pm.current_player % pm.max_players + delta % pm.max_players) % pm.max_players :=
    fun delta => Nat.add_mod _ _ _
  obtain ⟨delta, hd1, hdlt, hdmod⟩ :
      ∃ delta, 1 ≤ delta ∧ delta < pm.max_players ∧
        (pm.current_player + delta) % pm.max_players = t := by
    rcases Nat.lt_or_ge (pm.current_player % pm.max_players) t with hct | hct
    · refine ⟨t - pm.current_player % pm.max_players, by omega, by omega, ?_⟩
      rw [key, Nat.mod_eq_of_lt (show t - pm.current_player % pm.max_players
          < pm.max_players by omega),
        show pm.current_player % pm.max_players
            + (t - pm.current_player % pm.max_players) = t by omega,
        Nat.mod_eq_of_lt htlt]
    · have hct' : t < pm.current_player % pm.max_players := by omega
      refine ⟨pm.max_players - pm.current_player % pm.max_players + t, by omega, by omega, ?_⟩
      rw [key, Nat.mod_eq_of_lt (show pm.max_players - pm.current_player % pm.max_players + t
          < pm.max_players by omega),
        show pm.current_player % pm.max_players
            + (pm.max_players - pm.current_player % pm.max_players + t)
            = pm.max_players + t by omega,
        Nat.add_mod_left, Nat.mod_eq_of_lt htlt]
  rw [next_player_idx, Option.isSome_map', List.find?_isSome]
  refine ⟨delta, ?_, ?_⟩
  · rw [deltas, List.mem_map]
    exact ⟨delta - 1, List.mem_range.mpr (by omega), by omega⟩
  · rw [hdmod]
    exact htnl

lemma advance_finish_isSome (pmc : PlayerManager) : (advance_finish pmc).isSome := by
  rcases hc : count_not_losers pmc with _ | _ | n
  · simp [advance_finish, hc]
  · simp only [advance_finish, hc, Option.isSome_map']
    exact find_winner_isSome pmc (by omega)
  · simp only [advance_finish, hc, Option.isSome_map']
    exact next_player_idx_isSome pmc (by omega)

/-! ### Claims about the turn manager -/

/-- Claim C4, as stated, is false: calling advance on a PlayerManager whose
game_state is Ended does not report the terminal GameOver value back to the
caller; the source panics (modelled by none) at the explicit
"Game has already ended" check.  Concrete input: a two player manager whose
game is already Ended with Win 1. -/
theorem advance_after_end_does_not_report :
    advance { PlayerManager.new 1 2 [none, none] with
        game_state := GameState.Ended (GameOver.Win 1) } (fun _ => false) (fun _ => false)
      = none := by decide

/-- Claim C4 (amended): for every PlayerManager whose game_state is Ended,
a further call to advance panics (modelled as returning none) before
touching any counter, instead of reporting the terminal state. -/
theorem advance_after_end_panics (pm : PlayerManager) (oom ooc : Nat → Bool)
    (h : pm.game_state ≠ GameState.Ongoing) : advance pm oom ooc = none := by
  rw [advance, if_pos h]

/-- Witness for the amended claim C4 at a concrete ended manager. -/
theorem advance_after_end_panics_witness :
    advance { PlayerManager.new 3 3 [none, none, none] with
        game_state := GameState.Ended GameOver.Draw } (fun _ => true) (fun _ => true)
      = none :=
  advance_after_end_panics _ _ _ (by decide)

/-- Claim C5, as stated, is false: in a fresh two player game with
max_moves 1, an advance during which only player 1 is reported out of
moves (out of crosses is false everywhere) eliminates player 1 even
though that elimination leaves a single non-loser, and the game ends with
Win 0; the source only requires its maybe_not_losers counter to exceed
one before marking, not that two non-losers remain afterwards. -/
theorem out_of_moves_elimination_can_leave_one :
    (advance (PlayerManager.new 1 2 [none, none]) (fun i => i == 1)
        (fun _ => false)).map
      (fun pm => ((pm.losers.getD 1 none).isSome, count_not_losers pm, pm.game_state))
      = some (true, 1, GameState.Ended (GameOver.Win 0)) := by decide

/-- Claim C5 (amended): during the elimination re-check, a player p that
was not a loser and is a loser afterwards was either reported out of
crosses, or was reported out of moves and additionally the working
non-loser count of the scan exceeded one at the moment of marking; since
that working count starts at count_not_losers and never increases, an
out-of-moves elimination requires at least two non-losers when the scan
starts (it does not guarantee that two non-losers remain afterwards). -/
theorem check_elimination_gate (pm : PlayerManager) (ca : Bool) (oom ooc : Nat → Bool)
    (p : Nat) (h0 : pm.losers.getD p none = none)
    (h1 : (check_if_other_players_have_lost pm ca oom ooc).losers.getD p none ≠ none) :
    ooc p = true ∨ (oom p = true ∧ 2 ≤ count_not_losers pm) :=
  check_go_mark oom ooc ca pm.max_players pm.current_player pm.current_move
    (deltas pm.max_players) (count_not_losers pm) pm.losers p h0 h1

/-- Witness for the amended claim C5: in the fresh two player game, the
scan marks player 1 and the conclusion of the gate theorem holds there. -/
theorem check_elimination_gate_witness :
    (fun _ : Nat => false) 1 = true ∨
      ((fun i : Nat => i == 1) 1 = true ∧
        2 ≤ count_not_losers (PlayerManager.new 1 2 [none, none])) :=
  check_elimination_gate (PlayerManager.new 1 2 [none, none]) false
    (fun i => i == 1) (fun _ => false) 1 (by decide) (by decide)

/-- Claim C6, as stated, is false: in a fresh two player game with
max_moves 1, calling advance with is_out_of_moves 0 = true does not mark
player 0 and does not end the game with Win 1; the budget-exhaustion
branch runs first (remaining_moves reaches 0) and is_out_of_moves is
never consulted for the current player, so the game stays Ongoing with
the turn passed to player 1. -/
theorem advance_oom_scenario_fails_with_max_moves_one :
    (advance (PlayerManager.new 1 2 [none, none]) (fun i => i == 0)
        (fun _ => false)).map
      (fun pm => ((pm.losers.getD 0 none).isNone, pm.game_state, pm.current_player))
      = some (true, GameState.Ongoing, 1) := by decide

/-- Claim C6 (amended): whenever advance passes the turn, the state pmc
left by the elimination re-check decides the outcome: 0 remaining
non-losers give Ended Draw; exactly 1 gives Ended (Win w) for the unique
non-loser w; 2 or more keep the game Ongoing, make the next non-loser in
cyclic order the current player and reset the budget to max_moves.  The
in-particular scenario holds when the out-of-moves check is actually
reached, which requires remaining_moves to exceed 1 at the call, e.g.
max_moves = 2 on the first move of a fresh two player game. -/
theorem advance_turn_pass_outcomes :
    (∀ pmc : PlayerManager,
      (count_not_losers pmc = 0 →
        advance_finish pmc
          = some { pmc with game_state := GameState.Ended GameOver.Draw }) ∧
      (count_not_losers pmc = 1 →
        ∃ w, find_winner pmc = some w ∧ (pmc.losers.getD w none).isNone = true ∧
          (∀ j, j < pmc.max_players → (pmc.losers.getD j none).isNone = true → j = w) ∧
          advance_finish pmc
            = some { pmc with game_state := GameState.Ended (GameOver.Win w) }) ∧
      (2 ≤ count_not_losers pmc →
        ∃ np, next_player_idx pmc = some np ∧ (pmc.losers.getD np none).isNone = true ∧
          advance_finish pmc
            = some { pmc with current_player := np, remaining_moves := pmc.max_moves })) ∧
    (advance (PlayerManager.new 2 2 [none, none]) (fun i => i == 0)
        (fun _ => false)).map
      (fun pm => ((pm.losers.getD 0 none).isSome, pm.game_state))
      = some (true, GameState.Ended (GameOver.Win 1)) := by
  constructor
  · intro pmc
    refine ⟨fun h0 => by simp [advance_finish, h0], fun h1 => ?_, fun h2 => ?_⟩
    · obtain ⟨w, hw⟩ := Option.isSome_iff_exists.mp (find_winner_isSome pmc (by omega))
      have hw' := hw
      rw [find_winner] at hw'
      have hwnl : (pmc.losers.getD w none).isNone = true := by
        simpa using List.find?_some hw'
      refine ⟨w, hw, hwnl, fun j hj hjnl => ?_, by simp [advance_finish, h1, hw]⟩
      by_contra hne
      have hwmem : w ∈ (List.range pmc.max_players).filter
          (fun i => (pmc.losers.getD i none).isNone) :=
        List.mem_filter.mpr ⟨List.mem_of_find?_eq_some hw', hwnl⟩
      have hjmem : j ∈ (List.range pmc.max_players).filter
          (fun i => (pmc.losers.getD i none).isNone) :=
        List.mem_filter.mpr ⟨List.mem_range.mpr hj, hjnl⟩
      have hcount := length_ge_two_of_two_mem hjmem hwmem hne
      rw [count_not_losers] at h1
      omega
    · obtain ⟨np, hnp⟩ := Option.isSome_iff_exists.mp (next_player_idx_isSome pmc h2)
      have hnl : (pmc.losers.getD np none).isNone = true := by
        rw [next_player_idx] at hnp
        obtain ⟨d, hfind, hfd⟩ := Option.map_eq_some'.mp hnp
        simpa only [hfd] using List.find?_some hfind
      obtain ⟨n, hn⟩ : ∃ n, count_not_losers pmc = n + 2 :=
        ⟨count_not_losers pmc - 2, by omega⟩
      exact ⟨np, hnp, hnl, by simp [advance_finish, hn, hnp]⟩
  · decide

/-- Witness for the amended claim C6: the two-or-more branch at a concrete
three player manager with one recorded loser. -/
theorem advance_turn_pass_outcomes_witness :
    ∃ np, next_player_idx c6_mid = some np ∧
      (c6_mid.losers.getD np none).isNone = true ∧
      advance_finish c6_mid
        = some { c6_mid with current_player := np, remaining_moves := c6_mid.max_moves } :=
  (advance_turn_pass_outcomes.1 c6_mid).2.2 (by decide)

/-- Claim C7, as stated, is false and the source contradicts its own
documentation: after one advance on a fresh two player manager with
max_moves 2 (no turn pass, no eliminations), reverse with the correct
previous player 0 yields remaining_moves 0 instead of restoring the
pre-advance value 2; the source decrements remaining_moves
(remaining_moves - 1) where its doc comment says it increments, so
reverse is not the inverse of advance. -/
theorem reverse_does_not_invert_advance :
    ((advance (PlayerManager.new 2 2 [none, none]) (fun _ => false)
        (fun _ => false)).bind (fun pm1 => reverse pm1 0))
      = some { PlayerManager.new 2 2 [none, none] with remaining_moves := 0 } ∧
    ({ PlayerManager.new 2 2 [none, none] with remaining_moves := 0 } : PlayerManager)
      ≠ PlayerManager.new 2 2 [none, none] := by decide

/-- Claim C10: on any advance call from a reachable state (game Ongoing,
at least one remaining move), advance returns normally: in particular the
turn-passing branch never reaches the unreachable panic of
next_player_idx, nor the unwrap panic of the winner lookup, both of which
are modelled as none propagating to the result of advance. -/
theorem advance_never_hits_unreachable (pm : PlayerManager) (oom ooc : Nat → Bool)
    (h1 : pm.game_state = GameState.Ongoing) (h2 : 1 ≤ pm.remaining_moves) :
    (advance pm oom ooc).isSome := by
  rw [advance, if_neg (by simp [h1]), if_neg (by omega)]
  simp only []
  split
  · rw [Option.isSome_map']
    exact advance_finish_isSome _
  · split
    · rw [Option.isSome_map']
      exact advance_finish_isSome _
    · rfl

/-- Witness for claim C10 at a concrete fresh manager. -/
theorem advance_never_hits_unreachable_witness :
    (advance (PlayerManager.new 1 2 [none, none]) (fun _ => true)
      (fun _ => true)).isSome :=
  advance_never_hits_unreachable _ _ _ rfl (by decide)

/-! ### Claims about the board engine -/

/-- Claim C1: for every board, index and player, make_move fails with
exactly the error determined by the kind and activity of the cell at the
index, and succeeds otherwise: OutOfReach on an inactive Empty cell,
SelfFill on an own Cross, OutOfReach on an inactive foreign Cross,
DoubleFill on a Filled cell, BorderHit on a Border cell, Ok in the
remaining cases. -/
theorem make_move_error_cases (adj : Nat → List Nat) (b : Board) (index p : Nat) :
    (make_move adj b index p).1 =
      match (get b index).kind with
      | CellKind.Empty =>
        if (get b index).is_active p then none else some BoardError.OutOfReach
      | CellKind.Cross =>
        if (get b index).player = p then some BoardError.SelfFill
        else if (get b index).is_active p then none else some BoardError.OutOfReach
      | CellKind.Filled => some BoardError.DoubleFill
      | CellKind.Border => some BoardError.BorderHit := by
  rcases hk : (get b index).kind
  · by_cases ha : (get b index).is_active p <;>
      simp only [make_move, hk, ha] <;> simp
  · by_cases hp : (get b index).player = p
    · simp only [make_move, hk, hp]
      simp
    · by_cases ha : (get b index).is_active p <;>
        simp only [make_move, hk, hp, ha] <;> simp
  · simp only [make_move, hk]
  · simp only [make_move, hk]

/-- Claim C3: every failing make_move or cancel_move call returns the
board exactly as it received it: all legality checks run before any
mutation. -/
theorem failed_calls_leave_board_unchanged (adj : Nat → List Nat) (b : Board)
    (index p gp : Nat) (e : BoardError) :
    ((make_move adj b index p).1 = some e → (make_move adj b index p).2 = b) ∧
    ((cancel_move adj b index gp).1 = some e → (cancel_move adj b index gp).2 = b) := by
  constructor
  · intro he
    rcases hk : (get b index).kind
    · by_cases ha : (get b index).is_active p
      · simp only [make_move, hk, ha] at he
        simp at he
      · simp only [make_move, hk, ha]
        simp
    · by_cases hp : (get b index).player = p
      · simp only [make_move, hk, hp]
        simp
      · by_cases ha : (get b index).is_active p
        · simp only [make_move, hk, hp, ha] at he
          simp at he
        · simp only [make_move, hk, hp, ha]
          simp
    · simp only [make_move, hk]
    · simp only [make_move, hk]
  · intro he
    rcases hk : (get b index).kind
    · simp only [cancel_move, hk]
    · simp only [cancel_move, hk] at he
      simp at he
    · simp only [cancel_move, hk] at he
      simp at he
    · simp only [cancel_move, hk]

/-- Witness for claim C3: a SelfFill and a BorderHit failure each leave
the concrete two cross board untouched. -/
theorem failed_calls_leave_board_unchanged_witness :
    (make_move adj_pair board_pair 0 0).2 = board_pair ∧
    (cancel_move adj_pair board_pair 5 0).2 = board_pair :=
  ⟨(failed_calls_leave_board_unchanged adj_pair board_pair 0 0 0
      BoardError.SelfFill).1 (by decide),
    (failed_calls_leave_board_unchanged adj_pair board_pair 5 0 0
      BoardError.BorderHit).2 (by decide)⟩

/-- Claim C2 fails on the code: on the two cross board, player 1 legally
fills cell 0 (owned by player 0, active for player 1), and the immediate
cancel_move with the correct prior owner 0 succeeds but does not restore
the pre-move snapshot: the restored Cross has lost its activation for
player 1 (remove_fill clears all activation and cancel_move never
re-derives the activation of the cell itself, although the spec requires
exactly that re-derivation). -/
theorem make_cancel_round_trip_fails :
    (make_move adj_pair board_pair 0 1).1 = none ∧
    (cancel_move adj_pair (make_move adj_pair board_pair 0 1).2 0 0).1 = none ∧
    (cancel_move adj_pair (make_move adj_pair board_pair 0 1).2 0 0).2 ≠ board_pair ∧
    (get board_pair 0).is_active 1 = true ∧
    (get (cancel_move adj_pair (make_move adj_pair board_pair 0 1).2 0 0).2 0).is_active 1
      = false ∧
    (get board_pair 1).important = false ∧
    (get (cancel_move adj_pair (make_move adj_pair board_pair 0 1).2 0 0).2 1).important
      = true := by decide

/-- Claim C8 fails on the code: on the two cross board the activation
symmetry invariant (with the own-owner exclusion the code itself enforces
through its debug assertion) holds, still holds after the legal fill of
cell 0 by player 1, but is violated after the immediate cancel_move: the
restored Cross of player 0 at cell 0 is adjacent to the Cross of player 1
at cell 1 yet carries no activation for player 1. -/
theorem activation_symmetry_not_preserved :
    activation_symmetry adj_pair board_pair 2 = true ∧
    (make_move adj_pair board_pair 0 1).1 = none ∧
    activation_symmetry adj_pair (make_move adj_pair board_pair 0 1).2 2 = true ∧
    (cancel_move adj_pair (make_move adj_pair board_pair 0 1).2 0 0).1 = none ∧
    activation_symmetry adj_pair
      (cancel_move adj_pair (make_move adj_pair board_pair 0 1).2 0 0).2 2
      = false := by decide

/-- Claim C9: the deactivation cascade for a cell that was important runs
deactivate_filled_around first and deactivate_remaining_around only
afterwards (and skips the filled pass when the cell was not important);
on concrete boards the filled pass exhibits both documented modes: when
search finds a replacement cross of the owner the chain is re-anchored
there (the found cross and an adjacent chain cell become important, the
chain stays alive), and when no cross exists the chain is killed and the
plain activation edges of its neighbors are removed. -/
theorem deactivate_order_and_modes :
    (∀ (adj : Nat → List Nat) (b : Board) (index p : Nat),
      deactivate_around adj b index p true
        = deactivate_remaining_around adj (deactivate_filled_around adj b index p)
            index p ∧
      deactivate_around adj b index p false
        = deactivate_remaining_around adj b index p) ∧
    ((get (deactivate_filled_around adj_line board_reanchor 0 0) 3).important = true ∧
      (get (deactivate_filled_around adj_line board_reanchor 0 0) 2).important = true ∧
      (get (deactivate_filled_around adj_line board_reanchor 0 0) 1).alive = true ∧
      (get (deactivate_filled_around adj_line board_reanchor 0 0) 2).alive = true) ∧
    ((get (deactivate_filled_around adj_line board_kill 0 0) 2).alive = false ∧
      (get (deactivate_filled_around adj_line board_kill 0 0) 1).important = false ∧
      (get (deactivate_filled_around adj_line board_kill 0 0) 0).is_active 0 = false ∧
      (get (deactivate_filled_around adj_line board_kill 0 0) 3).is_active 0
        = false) := by
  refine ⟨fun adj b index p => ⟨rfl, rfl⟩, by decide, by decide⟩

end CrossesUtils
